import Mathlib

/-!
Shallow embedding of the moleculer-schema-adapter package.

The package wires an AJV-based validation gate into a Moleculer service:
a mixin whose `settings.schemas` object is an in-memory registry mapping
logical names to schema documents, a `validateAction` before-hook, a
`validateEvent` method wrapped around local event delivery by the
`localEvent` middleware, and a startup loader that populates the registry
from a directory of schema files.

The AJV engine is opaque to the adapter, so it is embedded as a structure
of functions (`Engine`): payload validation, the error list AJV exposes as
`ajv.errors` after a failed validation, schema-level (meta) validation
(`ajv.validateSchema`), and its error list.  JS objects keyed by strings
are embedded as association lists with first-match lookup and in-place
overwrite.  Thrown JS exceptions are embedded as `Except` / an `Option`
error component; where the surrounding code mutates state before or after
a possible throw, a `...Run` function returns the state the caller
observes together with the escaping error, mirroring how exceptions
interact with the heap.
-/

section Model

variable {S P E R : Type}

/-- The AJV validation engine as the adapter sees it: `validate schema payload`
is the boolean result of `ajv.validate`, `errs` the `ajv.errors` list it leaves
behind on failure, `validateSchema` the boolean result of `ajv.validateSchema`,
and `schemaErrors` the `ajv.errors` list a failed schema-level validation
leaves behind. -/
structure Engine (S P E : Type) where
  validate : S → P → Bool
  errs : S → P → List E
  validateSchema : S → Bool
  schemaErrors : S → List E

/-- The in-memory registry `settings.schemas`: a JS object keyed by logical
name, embedded as an association list. -/
abbrev Registry (S : Type) := List (String × S)

/-- Property read `settings.schemas[name]`: the unique matching key, if any. -/
def lookupSchema : Registry S → String → Option S
  | [], _ => none
  | (k, v) :: rest, n => if k = n then some v else lookupSchema rest n

/-- Property write `settings.schemas[name] = schema`: overwrite the existing
key in place, otherwise append a fresh one. -/
def setSchema : Registry S → String → S → Registry S
  | [], n, v => [(n, v)]
  | (k, w) :: rest, n, v => if k = n then (k, v) :: rest else (k, w) :: setSchema rest n v

/-- Errors thrown by the call-time gates: `INVALID_PAYLOAD(name, ajv.errors)`
and `MISSING_SCHEMA(name)` from errors.js, and Moleculer's
`ValidationError(message, ajv.errors)` thrown by the index.js variant of
`validateAction`. -/
inductive GateError (E : Type) where
  | invalidPayload (name : String) (errs : List E)
  | validationError (name : String) (errs : List E)
  | missingSchema (name : String)
deriving DecidableEq

/-- The shared body of the gates: look the logical name up in the registry;
on a hit run `ajv.validate` and throw `INVALID_PAYLOAD(name, ajv.errors)` when
it fails; on a miss throw `MISSING_SCHEMA(name)`. -/
def schemaCheck (eng : Engine S P E) (reg : Registry S) (name : String) (p : P) :
    Except (GateError E) Unit :=
  match lookupSchema reg name with
  | some s =>
    if eng.validate s p then .ok () else .error (.invalidPayload name (eng.errs s p))
  | none => .error (.missingSchema name)

/-- The `validateAction(ctx)` hook of the mixin (the variant with the
`listSchemas` bypass): return immediately when `ctx.action.rawName` is
`"listSchemas"`, otherwise check `ctx.params` against the schema registered
under `ctx.action.name`. -/
def validateAction (eng : Engine S P E) (reg : Registry S) (rawName actionName : String)
    (p : P) : Except (GateError E) Unit :=
  if rawName = "listSchemas" then .ok () else schemaCheck eng reg actionName p

/-- The `validateAction(ctx)` hook of src/index.js: no bypass; on a registered
schema run `ajv.validate` and throw `ValidationError(..., ajv.errors)` when it
fails; otherwise throw `MISSING_SCHEMA(actionName)`. -/
def validateActionIndex (eng : Engine S P E) (reg : Registry S) (actionName : String)
    (p : P) : Except (GateError E) Unit :=
  match lookupSchema reg actionName with
  | some s =>
    if eng.validate s p then .ok () else .error (.validationError actionName (eng.errs s p))
  | none => .error (.missingSchema actionName)

/-- The `validateEvent(payload, sender, eventName)` method: check the payload
against the schema registered under the event name, throwing
`INVALID_PAYLOAD(eventName, ajv.errors)` or `MISSING_SCHEMA(eventName)`.
The sender only appears in log text, never in the decision. -/
def validateEvent (eng : Engine S P E) (reg : Registry S) (payload : P)
    (eventName : String) : Except (GateError E) Unit :=
  match lookupSchema reg eventName with
  | some s =>
    if eng.validate s payload then .ok ()
    else .error (.invalidPayload eventName (eng.errs s payload))
  | none => .error (.missingSchema eventName)

/-- The `localEvent` middleware wrapper: run `validateEvent` inside a
try/catch, record any thrown error as a logged diagnostic, and
unconditionally return `next(payload, sender, topic)`.  The result is the
pair (diagnostics logged, value returned to the delivery path). -/
def localEvent (eng : Engine S P E) (reg : Registry S) (next : P → String → String → R)
    (payload : P) (sender topic : String) : List (GateError E) × R :=
  (match validateEvent eng reg payload topic with
   | .ok _ => []
   | .error e => [e],
   next payload sender topic)

end Model

section Loading

variable {S P E : Type}

/-- Errors thrown by the loading pipeline: `SCHEMA_INVALID(ajv.errors)` from
`processSchema`, `PATH_FAILED_TO_PROCESS_SCHEMA(name, error)` wrapping the
error of the entry that failed, and `PATH_FAILED_READ_DIRECTORY` when the
directory enumeration itself throws. -/
inductive LoadError (E : Type) where
  | schemaInvalid (errs : List E)
  | failedToProcessSchema (name : String) (inner : LoadError E)
  | failedReadDirectory
deriving DecidableEq

/-- The helpers.js `processSchema(ctx, schemaName, schema)`: throw
`SCHEMA_INVALID(ajv.errors)` when `ajv.validateSchema` fails, otherwise compile
(an engine-internal cache effect) and store the document under the name in
`ctx.settings.schemas`.  The context passed from `started` is the service
itself, so the branch guarded by `Object.keys(ctx).includes("broker")` is the
one taken; the external `broker.cacher.set` call has no registry effect. -/
def processSchema (eng : Engine S P E) (st : Registry S) (name : String) (schema : S) :
    Except (LoadError E) (Registry S) :=
  if eng.validateSchema schema then .ok (setSchema st name schema)
  else .error (.schemaInvalid (eng.schemaErrors schema))

/-- The registry a caller that catches the throw observes after
`processSchema`: the updated registry on success, the untouched one plus the
escaping error on failure (the throw happens before any mutation). -/
def processSchemaRun (eng : Engine S P E) (st : Registry S) (name : String) (schema : S) :
    Registry S × Option (LoadError E) :=
  match processSchema eng st name schema with
  | .ok st2 => (st2, none)
  | .error e => (st, some e)

/-- The `schemasMap.forEach` loop of helpers.js `loadAllSchemasFromDisk`:
process the entries in order; a `processSchema` throw is caught and rethrown
as `PATH_FAILED_TO_PROCESS_SCHEMA(schemaName, error)`, which escapes the loop.
The result is the registry as mutated so far together with the escaping
error, if any. -/
def processAllRun (eng : Engine S P E) :
    List (String × S) → Registry S → Registry S × Option (LoadError E)
  | [], st => (st, none)
  | (n, sch) :: rest, st =>
    match processSchema eng st n sch with
    | .ok st2 => processAllRun eng rest st2
    | .error e => (st, some (.failedToProcessSchema n e))

/-- The helpers.js `loadAllSchemasFromDisk(ctx, schemasDirectory)`: the
`requireDir` enumeration either throws (rethrown as
`PATH_FAILED_READ_DIRECTORY`) or yields the (name, document) entries, which
are then processed in order.  The enumeration outcome is passed in as an
`Option` since the filesystem is external. -/
def loadAllSchemasFromDisk (eng : Engine S P E) (enumRes : Option (List (String × S)))
    (st : Registry S) : Registry S × Option (LoadError E) :=
  match enumRes with
  | none => (st, some .failedReadDirectory)
  | some entries => processAllRun eng entries st

/-- The mixin's `started()` lifecycle hook: it calls `loadAllSchemasFromDisk`
with the service as context and does not catch anything, so whatever that
call throws escapes the hook. -/
def started (eng : Engine S P E) (enumRes : Option (List (String × S)))
    (st : Registry S) : Registry S × Option (LoadError E) :=
  loadAllSchemasFromDisk eng enumRes st

/-- Folding a list of (name, document) entries into the registry, the state
`processAllRun` reaches after a prefix of successful entries. -/
def storeAll (st : Registry S) (entries : List (String × S)) : Registry S :=
  entries.foldl (fun acc e => setSchema acc e.1 e.2) st

end Loading

/-- Looking up a name right after storing it under that name finds the stored
document. -/
theorem lookupSchema_setSchema {S : Type} (st : Registry S) (n : String) (v : S) :
    lookupSchema (setSchema st n v) n = some v := by
  induction st with
  | nil => simp [setSchema, lookupSchema]
  | cons hd tl ih =>
    obtain ⟨k, w⟩ := hd
    by_cases hk : k = n
    · simp [setSchema, lookupSchema, hk]
    · simp [setSchema, lookupSchema, hk, ih]

/-- A small concrete engine over `Nat` schemas and payloads used to exercise
the definitions on closed inputs: a schema is well-formed iff nonzero, and a
payload is accepted iff it does not exceed the schema. -/
def natEngine : Engine Nat Nat String where
  validate s p := Nat.ble p s
  errs _ _ := ["payload exceeds bound"]
  validateSchema s := s != 0
  schemaErrors _ := ["schema must be nonzero"]

/-- C1: for a schema registered under a name, the action gate accepts a payload
iff the engine itself accepts the payload against that schema, and on rejection
the thrown error carries the engine's error list verbatim. -/
theorem c1_gate_engine_roundtrip {S P E : Type} (eng : Engine S P E) (reg : Registry S)
    (actionName : String) (p : P) (s : S)
    (hreg : lookupSchema reg actionName = some s) :
    (validateActionIndex eng reg actionName p = .ok () ↔ eng.validate s p = true) ∧
    (eng.validate s p = false →
      validateActionIndex eng reg actionName p =
        .error (.validationError actionName (eng.errs s p))) := by
  unfold validateActionIndex
  rw [hreg]
  constructor
  · constructor
    · intro h
      by_contra hb
      rw [Bool.not_eq_true] at hb
      simp [hb] at h
    · intro h
      simp [h]
  · intro h
    simp [h]

/-- Witness for C1 at a concrete registry, schema and payload. -/
theorem c1_gate_engine_roundtrip_witness :
    (validateActionIndex natEngine [("orderCreated", (5 : Nat))] "orderCreated" (3 : Nat) =
        .ok () ↔ natEngine.validate 5 3 = true) ∧
    validateActionIndex natEngine [("orderCreated", (5 : Nat))] "orderCreated" (9 : Nat) =
      .error (.validationError "orderCreated" (natEngine.errs 5 9)) := by
  constructor
  · exact (c1_gate_engine_roundtrip natEngine [("orderCreated", 5)] "orderCreated" 3 5
      (by decide)).1
  · exact (c1_gate_engine_roundtrip natEngine [("orderCreated", 5)] "orderCreated" 9 5
      (by decide)).2 (by decide)

/-- C2 counterexample: with no schema registered under "pingHealth", the action
gate throws `MISSING_SCHEMA` — the call is refused, it does not proceed. -/
theorem c2_missing_schema_counterexample :
    validateActionIndex natEngine ([] : Registry Nat) "pingHealth" (0 : Nat) =
      .error (.missingSchema "pingHealth") ∧
    validateActionIndex natEngine ([] : Registry Nat) "pingHealth" (0 : Nat) ≠ .ok () := by
  refine ⟨rfl, ?_⟩
  intro h
  exact Except.noConfusion h

/-- C2 amended: when no schema is registered under the action's name, both
variants of the action gate reject the call by throwing
`MISSING_SCHEMA(actionName)`; there is no warn-and-proceed path for actions. -/
theorem c2_missing_schema_rejects {S P E : Type} (eng : Engine S P E) (reg : Registry S)
    (rawName actionName : String) (p : P)
    (hmiss : lookupSchema reg actionName = none) :
    validateActionIndex eng reg actionName p = .error (.missingSchema actionName) ∧
    (rawName ≠ "listSchemas" →
      validateAction eng reg rawName actionName p = .error (.missingSchema actionName)) := by
  constructor
  · unfold validateActionIndex
    rw [hmiss]
  · intro hraw
    unfold validateAction schemaCheck
    rw [if_neg hraw, hmiss]

/-- Witness for the amended C2 at a concrete empty registry. -/
theorem c2_missing_schema_rejects_witness :
    validateActionIndex natEngine ([] : Registry Nat) "math.add" (1 : Nat) =
      .error (.missingSchema "math.add") ∧
    validateAction natEngine ([] : Registry Nat) "add" "math.add" (1 : Nat) =
      .error (.missingSchema "math.add") := by
  have h := c2_missing_schema_rejects natEngine ([] : Registry Nat) "add" "math.add"
    (1 : Nat) rfl
  exact ⟨h.1, h.2 (by decide)⟩

/-- C5: the event gate never raises into the delivery path — the wrapper always
returns `next(payload, sender, topic)`, and a validation failure (rejection or
missing schema alike) is only recorded as a logged diagnostic. -/
theorem c5_event_gate_never_raises {S P E R : Type} (eng : Engine S P E) (reg : Registry S)
    (next : P → String → String → R) (payload : P) (sender topic : String) :
    (localEvent eng reg next payload sender topic).2 = next payload sender topic ∧
    (validateEvent eng reg payload topic = .ok () →
      (localEvent eng reg next payload sender topic).1 = []) ∧
    (∀ e, validateEvent eng reg payload topic = .error e →
      (localEvent eng reg next payload sender topic).1 = [e]) := by
  refine ⟨rfl, ?_, ?_⟩
  · intro h
    simp [localEvent, h]
  · intro e h
    simp [localEvent, h]

/-- Witness for C5: a rejected event payload is logged and delivery proceeds. -/
theorem c5_event_gate_never_raises_witness :
    (localEvent natEngine [("orderCreated", (5 : Nat))] (fun p _ _ => p + 100) (9 : Nat)
      "svc" "orderCreated").2 = 109 ∧
    (localEvent natEngine [("orderCreated", (5 : Nat))] (fun p _ _ => p + 100) (9 : Nat)
      "svc" "orderCreated").1 = [.invalidPayload "orderCreated" ["payload exceeds bound"]] := by
  have h := c5_event_gate_never_raises natEngine [("orderCreated", (5 : Nat))]
    (fun p _ _ => p + 100) (9 : Nat) "svc" "orderCreated"
  refine ⟨h.1, ?_⟩
  exact h.2.2 (.invalidPayload "orderCreated" ["payload exceeds bound"]) rfl

/-- C9: the action hook exempts exactly its own introspection action — when
`ctx.action.rawName` is "listSchemas" it returns successfully without
consulting the registry (the decision is identical under any two registries),
and any other raw name goes through the registered-schema check. -/
theorem c9_listSchemas_bypass {S P E : Type} (eng : Engine S P E) (reg reg2 : Registry S)
    (rawName actionName : String) (p : P) :
    (rawName = "listSchemas" →
      validateAction eng reg rawName actionName p = .ok () ∧
      validateAction eng reg rawName actionName p =
        validateAction eng reg2 rawName actionName p) ∧
    (rawName ≠ "listSchemas" →
      validateAction eng reg rawName actionName p = schemaCheck eng reg actionName p) := by
  constructor
  · intro h
    constructor <;> simp [validateAction, h]
  · intro h
    simp [validateAction, h]

/-- Witness for C9: a "listSchemas" call passes with an empty registry and with
a registry whose schema would reject the payload; another name is checked. -/
theorem c9_listSchemas_bypass_witness :
    validateAction natEngine ([] : Registry Nat) "listSchemas" "svc.listSchemas" (9 : Nat) =
      .ok () ∧
    validateAction natEngine ([] : Registry Nat) "listSchemas" "svc.listSchemas" (9 : Nat) =
      validateAction natEngine [("svc.listSchemas", (5 : Nat))] "listSchemas"
        "svc.listSchemas" (9 : Nat) ∧
    validateAction natEngine ([] : Registry Nat) "add" "svc.add" (9 : Nat) =
      schemaCheck natEngine ([] : Registry Nat) "svc.add" (9 : Nat) := by
  have h1 := (c9_listSchemas_bypass natEngine ([] : Registry Nat)
    [("svc.listSchemas", (5 : Nat))] "listSchemas" "svc.listSchemas" (9 : Nat)).1 rfl
  have h2 := (c9_listSchemas_bypass natEngine ([] : Registry Nat) ([] : Registry Nat)
    "add" "svc.add" (9 : Nat)).2 (by decide)
  exact ⟨h1.1, h1.2, h2⟩

/-- C4: a document is stored in the registry only if it passes schema-level
validation; when validation fails, `processSchema` throws `SCHEMA_INVALID`
carrying the engine's error list and the registry the caller observes is
unchanged, while on success the document is stored under the name. -/
theorem c4_load_stores_only_valid {S P E : Type} (eng : Engine S P E) (st : Registry S)
    (n : String) (sch : S) :
    (eng.validateSchema sch = false →
      processSchemaRun eng st n sch = (st, some (.schemaInvalid (eng.schemaErrors sch)))) ∧
    (∀ st2, processSchema eng st n sch = .ok st2 →
      eng.validateSchema sch = true ∧ st2 = setSchema st n sch ∧
        lookupSchema st2 n = some sch) := by
  constructor
  · intro h
    simp [processSchemaRun, processSchema, h]
  · intro st2 h
    by_cases hv : eng.validateSchema sch = true
    · simp [processSchema, hv] at h
      exact ⟨hv, h.symm, h ▸ lookupSchema_setSchema st n sch⟩
    · rw [Bool.not_eq_true] at hv
      simp [processSchema, hv] at h

/-- Witness for C4: an invalid document is refused with the engine's errors and
the prior registry is untouched; a valid one lands under its name. -/
theorem c4_load_stores_only_valid_witness :
    processSchemaRun natEngine [("keep", (7 : Nat))] "bad" 0 =
      ([("keep", 7)], some (.schemaInvalid ["schema must be nonzero"])) ∧
    (natEngine.validateSchema 2 = true ∧
      ([("good", (2 : Nat))] : Registry Nat) = setSchema [] "good" 2 ∧
      lookupSchema ([("good", (2 : Nat))] : Registry Nat) "good" = some 2) := by
  constructor
  · exact (c4_load_stores_only_valid natEngine [("keep", (7 : Nat))] "bad" 0).1 rfl
  · exact (c4_load_stores_only_valid natEngine ([] : Registry Nat) "good" 2).2
      [("good", 2)] rfl

/-- C3 counterexample: with entries ("a" invalid, "b" valid) the loading pass
throws `PATH_FAILED_TO_PROCESS_SCHEMA("a", ...)` out of the loop — "b" is
never processed and no list of successes and per-name failures is returned. -/
theorem c3_abort_counterexample :
    processAllRun natEngine [("a", (0 : Nat)), ("b", 1)] ([] : Registry Nat) =
      ([], some (.failedToProcessSchema "a" (.schemaInvalid ["schema must be nonzero"]))) ∧
    lookupSchema
      (processAllRun natEngine [("a", (0 : Nat)), ("b", 1)] ([] : Registry Nat)).1 "b" =
        none := by
  constructor <;> rfl

/-- C3 amended: a processing failure of one schema entry aborts the whole pass:
the first failing entry makes `loadAllSchemasFromDisk` throw
`PATH_FAILED_TO_PROCESS_SCHEMA` naming that entry and wrapping its error,
entries after it are never processed, and only the entries before it remain
stored. -/
theorem c3_first_failure_aborts {S P E : Type} (eng : Engine S P E)
    (pre : List (String × S)) (n : String) (sch : S) (post : List (String × S))
    (st : Registry S)
    (hpre : ∀ e ∈ pre, eng.validateSchema e.2 = true)
    (hbad : eng.validateSchema sch = false) :
    processAllRun eng (pre ++ (n, sch) :: post) st =
      (storeAll st pre,
        some (.failedToProcessSchema n (.schemaInvalid (eng.schemaErrors sch)))) := by
  induction pre generalizing st with
  | nil => simp [processAllRun, processSchema, hbad, storeAll]
  | cons hd tl ih =>
    obtain ⟨m, s0⟩ := hd
    have hh : eng.validateSchema s0 = true := hpre (m, s0) (by simp)
    have hpre2 : ∀ e ∈ tl, eng.validateSchema e.2 = true := fun e he => hpre e (by simp [he])
    simp only [List.cons_append, processAllRun, processSchema, hh, if_true]
    rw [List.append_eq, ih (setSchema st m s0) hpre2]
    simp [storeAll]

/-- Witness for the amended C3: a valid entry, then an invalid one, then
another valid one — the pass stops at the invalid entry with only the first
entry stored. -/
theorem c3_first_failure_aborts_witness :
    processAllRun natEngine [("ok1", (2 : Nat)), ("bad", 0), ("ok2", 3)]
        ([] : Registry Nat) =
      (storeAll ([] : Registry Nat) [("ok1", (2 : Nat))],
        some (.failedToProcessSchema "bad" (.schemaInvalid ["schema must be nonzero"]))) := by
  exact c3_first_failure_aborts natEngine [("ok1", (2 : Nat))] "bad" 0 [("ok2", 3)]
    ([] : Registry Nat) (by decide) rfl

/-- C6 counterexample: when the enumeration of the schema directory fails, the
`started` lifecycle hook propagates `PATH_FAILED_READ_DIRECTORY` instead of
letting the service start with a thin registry. -/
theorem c6_started_raises_counterexample :
    (started natEngine none ([] : Registry Nat)).2 = some .failedReadDirectory ∧
    (started natEngine none ([] : Registry Nat)).2 ≠ none := by
  refine ⟨rfl, ?_⟩
  intro h
  exact Option.noConfusion h

/-- C6 amended: startup schema-population failures escape the `started` hook —
a failed directory enumeration raises `PATH_FAILED_READ_DIRECTORY`, and any
error escaping the processing loop is propagated unchanged, since `started`
catches nothing. -/
theorem c6_started_propagates {S P E : Type} (eng : Engine S P E) (st : Registry S) :
    started eng none st = (st, some (.failedReadDirectory : LoadError E)) ∧
    (∀ entries st2 e, processAllRun eng entries st = (st2, some e) →
      started eng (some entries) st = (st2, some e)) := by
  refine ⟨rfl, ?_⟩
  intro entries st2 e h
  simpa [started, loadAllSchemasFromDisk] using h

/-- Witness for the amended C6: a concrete failing enumeration and a concrete
failing entry both escape the hook. -/
theorem c6_started_propagates_witness :
    started natEngine none ([] : Registry Nat) = ([], some .failedReadDirectory) ∧
    started natEngine (some [("bad", (0 : Nat))]) ([] : Registry Nat) =
      ([], some (.failedToProcessSchema "bad" (.schemaInvalid ["schema must be nonzero"]))) := by
  have h := c6_started_propagates natEngine ([] : Registry Nat)
  exact ⟨h.1, h.2 [("bad", (0 : Nat))] [] _ rfl⟩

section Scan

/-- First-seen deduplication, the behaviour of inserting each element of the
list into a JS `Set` and iterating it in insertion order (index.js builds
`setOfFilenamesWithoutExtension` this way). -/
def firstSeen : List String → List String
  | [] => []
  | a :: rest => a :: firstSeen (rest.filter (fun b => b != a))
termination_by l => l.length
decreasing_by
  simp only [List.length_cons]
  exact Nat.lt_succ_of_le (List.length_filter_le _ _)

/-- ECMAScript `String.prototype.indexOf`: the index of the first occurrence
of the search string, or -1 when there is none. -/
def findSubAux (pat : List Char) : List Char → Nat → Option Nat
  | [], i => if pat.isEmpty then some i else none
  | c :: rest, i =>
    if pat.isPrefixOf (c :: rest) then some i else findSubAux pat rest (i + 1)

/-- String-level wrapper for `indexOf`, returning -1 on a miss as JS does. -/
def jsIndexOf (s pat : String) : Int :=
  match findSubAux pat.data s.data 0 with
  | some i => (i : Int)
  | none => -1

/-- ECMAScript index clamping used by `substring`: negative indices become 0
and indices past the end become the length. -/
def clampIdx (i len : Int) : Int := min (max i 0) len

/-- ECMAScript `String.prototype.substring(a, b)`: clamp both indices into
[0, length], swap them if needed, and take the characters in between. -/
def jsSubstring (s : String) (a b : Int) : String :=
  String.mk ((s.data.drop
      (min (clampIdx a (s.data.length : Int)) (clampIdx b (s.data.length : Int))).toNat).take
    (max (clampIdx a (s.data.length : Int)) (clampIdx b (s.data.length : Int)) -
      min (clampIdx a (s.data.length : Int)) (clampIdx b (s.data.length : Int))).toNat)

/-- The logical name index.js derives from a directory entry:
`filename.substring(0, filename.indexOf(".js"))`. -/
def derivedName (filename : String) : String :=
  jsSubstring filename 0 (jsIndexOf filename ".js")

/-- The sequence of names the index.js directory scan loads: each filename's
derived name is added to a `Set`, and one `loadSchemaFromDisk` call is made
per set entry in insertion order. -/
def scanNames (filenames : List String) : List String :=
  firstSeen (filenames.map derivedName)

/-- The path `loadSchemaFromDisk` reads for a schema name:
`schemasDirectory + "/" + schemaName + ".js"`. -/
def loadPath (dir name : String) : String := dir ++ "/" ++ name ++ ".js"

end Scan

/-- Membership is preserved by first-seen deduplication. -/
theorem mem_firstSeen (l : List String) (n : String) : n ∈ firstSeen l ↔ n ∈ l := by
  induction l using firstSeen.induct with
  | case1 => simp [firstSeen]
  | case2 a rest ih =>
    by_cases hn : n = a
    · simp [firstSeen, hn]
    · simp only [firstSeen, List.mem_cons, hn, false_or]
      rw [ih]
      simp [List.mem_filter, hn]

/-- First-seen deduplication yields a list without duplicates. -/
theorem firstSeen_nodup (l : List String) : (firstSeen l).Nodup := by
  induction l using firstSeen.induct with
  | case1 => simp [firstSeen]
  | case2 a rest ih =>
    simp only [firstSeen, List.nodup_cons]
    refine ⟨?_, ih⟩
    intro hmem
    rw [mem_firstSeen] at hmem
    simp [List.mem_filter] at hmem

/-- First-seen deduplication of a nonempty constant list is the singleton. -/
theorem firstSeen_const (l : List String) (c : String) (h : ∀ x ∈ l, x = c)
    (hne : l ≠ []) : firstSeen l = [c] := by
  cases l with
  | nil => exact absurd rfl hne
  | cons a rest =>
    have ha : a = c := h a (by simp)
    subst ha
    have hrest : rest.filter (fun b => b != a) = [] := by
      rw [List.filter_eq_nil_iff]
      intro b hb
      have hb2 : b = a := h b (by simp [hb])
      simp [hb2]
    simp [firstSeen, hrest]

/-- ECMAScript `substring(0, -1)` is the empty string: the negative end index
is clamped to 0. -/
theorem jsSubstring_zero_negOne (s : String) : jsSubstring s 0 (-1) = "" := by
  have hlen : (0 : Int) ≤ (s.data.length : Int) := Int.ofNat_nonneg _
  have h0 : clampIdx 0 (s.data.length : Int) = 0 := by
    rw [clampIdx, show max (0 : Int) 0 = 0 from rfl, min_eq_left hlen]
  have h1 : clampIdx (-1) (s.data.length : Int) = 0 := by
    rw [clampIdx, show max (-1 : Int) 0 = 0 by decide, min_eq_left hlen]
  rw [jsSubstring, h0, h1]
  simp

/-- C7: the index.js directory scan deduplicates by derived logical name —
the sequence of load calls it issues contains a name exactly once when some
scanned filename derives to it (and the sequence has no duplicates at all). -/
theorem c7_scan_deduplicates (filenames : List String) (n : String) :
    ((scanNames filenames).count n = 1 ↔ ∃ f ∈ filenames, derivedName f = n) ∧
    (scanNames filenames).Nodup := by
  refine ⟨⟨?_, ?_⟩, firstSeen_nodup _⟩
  · intro h
    have hmem : n ∈ scanNames filenames := by
      have : 0 < (scanNames filenames).count n := by omega
      exact List.count_pos_iff.mp this
    rw [scanNames, mem_firstSeen, List.mem_map] at hmem
    obtain ⟨f, hf, hd⟩ := hmem
    exact ⟨f, hf, hd⟩
  · intro h
    obtain ⟨f, hf, hd⟩ := h
    refine List.count_eq_one_of_mem (firstSeen_nodup _) ?_
    rw [scanNames, mem_firstSeen, List.mem_map]
    exact ⟨f, hf, hd⟩

/-- Witness for C7: `a.js` and `a.json` both derive to `a`, which is loaded
exactly once alongside `b`. -/
theorem c7_scan_deduplicates_witness :
    (scanNames ["a.js", "a.json", "b.js"]).count "a" = 1 ∧
    (scanNames ["a.js", "a.json", "b.js"]).count "b" = 1 := by
  constructor
  · exact (c7_scan_deduplicates ["a.js", "a.json", "b.js"] "a").1.2
      ⟨"a.js", by simp, by decide⟩
  · exact (c7_scan_deduplicates ["a.js", "a.json", "b.js"] "b").1.2
      ⟨"b.js", by simp, by decide⟩

/-- C10: a filename with no occurrence of ".js" derives to the empty string
(`substring(0, indexOf(".js")) = substring(0, -1) = ""`); all such files
collapse into the single set entry "" so at most one load is attempted for
them, targeting `<dir>/.js`; and no extension filter runs before name
derivation — every scanned filename contributes its derived name. -/
theorem c10_no_js_collapses (filenames : List String)
    (hall : ∀ f ∈ filenames, jsIndexOf f ".js" = -1) (hne : filenames ≠ []) :
    scanNames filenames = [""] ∧
    (∀ f ∈ filenames, derivedName f = "") ∧
    (∀ dir : String, loadPath dir "" = dir ++ "/.js") ∧
    (∀ (gs : List String) (nm : String), (scanNames gs).count nm ≤ 1) ∧
    (∀ (gs : List String) (g : String), g ∈ gs → derivedName g ∈ scanNames gs) := by
  have hder : ∀ f ∈ filenames, derivedName f = "" := by
    intro f hf
    rw [derivedName, hall f hf]
    exact jsSubstring_zero_negOne f
  refine ⟨?_, hder, ?_, ?_, ?_⟩
  · rw [scanNames]
    apply firstSeen_const
    · intro x hx
      obtain ⟨f, hf, rfl⟩ := List.mem_map.mp hx
      exact hder f hf
    · simp only [ne_eq, List.map_eq_nil_iff]
      exact hne
  · intro dir
    show ((dir ++ "/") ++ "") ++ ".js" = dir ++ "/.js"
    rw [String.append_empty, String.append_assoc]
    rfl
  · intro gs nm
    exact List.nodup_iff_count_le_one.mp (firstSeen_nodup _) nm
  · intro gs g hg
    rw [scanNames, mem_firstSeen]
    exact List.mem_map_of_mem derivedName hg

/-- Witness for C10: a directory holding only `README.md` and `LICENSE`
produces the single load name "". -/
theorem c10_no_js_collapses_witness :
    scanNames ["README.md", "LICENSE"] = [""] ∧
    loadPath "schemas" "" = "schemas" ++ "/.js" := by
  have h := c10_no_js_collapses ["README.md", "LICENSE"] (by decide) (by decide)
  exact ⟨h.1, h.2.2.1 "schemas"⟩

section Supervisor

/-- Modelled from the spec: the ConnectionSupervisor's connectivity state
(section 3, ConnectionState) — no supervisor code ships under src/, only the
spec's state machine description.  `Exhausted` is terminal until a manual
restart. -/
inductive ConnState where
  | Disconnected
  | Connecting
  | Connected
  | Exhausted
deriving DecidableEq

/-- Modelled from the spec: the supervisor's state together with its
RetryBudget (`attemptsMade`, `retryThreshold`); `retryTimeout` only paces the
schedule and plays no role in the transition structure. -/
structure Supervisor where
  state : ConnState
  attemptsMade : Nat
  retryThreshold : Nat
deriving DecidableEq

/-- Modelled from the spec: a freshly started supervisor — initial state
`Disconnected` with no attempts made. -/
def initSupervisor (threshold : Nat) : Supervisor :=
  { state := .Disconnected, attemptsMade := 0, retryThreshold := threshold }

/-- Modelled from the spec: whether the supervisor schedules another probe —
it stops scheduling exactly when it is `Exhausted`. -/
def schedulesAttempt (s : Supervisor) : Bool := s.state != .Exhausted

/-- Modelled from the spec: the effect of one failed liveness probe —
increment `attemptsMade`; once the threshold is reached transition to the
terminal `Exhausted` and stop scheduling, otherwise remain (in effect)
`Disconnected` with another attempt scheduled after the timeout.  In
`Exhausted` no probe fires, so the state is unchanged. -/
def probeFail (s : Supervisor) : Supervisor :=
  if s.state = .Exhausted then s
  else if s.attemptsMade + 1 ≥ s.retryThreshold then
    { s with state := .Exhausted, attemptsMade := s.attemptsMade + 1 }
  else
    { s with state := .Disconnected, attemptsMade := s.attemptsMade + 1 }

end Supervisor

/-- C8: with `retryThreshold = 3`, three consecutive probe failures put the
supervisor in the terminal `Exhausted` state, no fourth attempt is scheduled,
and a further probe step leaves the supervisor unchanged — the fourth attempt
never fires. -/
theorem c8_three_failures_exhaust :
    (probeFail (probeFail (probeFail (initSupervisor 3)))).state = .Exhausted ∧
    schedulesAttempt (probeFail (probeFail (probeFail (initSupervisor 3)))) = false ∧
    probeFail (probeFail (probeFail (probeFail (initSupervisor 3)))) =
      probeFail (probeFail (probeFail (initSupervisor 3))) ∧
    (probeFail (probeFail (initSupervisor 3))).state ≠ .Exhausted := by
  refine ⟨rfl, rfl, rfl, ?_⟩
  decide
